import Mathlib

/-!
# Verification of the NITE event-dispatch core and AMQP queue connector

A shallow embedding of the parts of the `nite` package that the studied
properties speak about:

* `src/nite/event.py` — `EventManager` (listener registry, `trigger_event`,
  `handle_event`), `BaseEvent` (`dump`, `load`, the identity properties);
* `src/nite/command.py` — `CommandEvent.__init__`;
* `src/nite/queue/connector/amqp_queue_connector.py` — the producer loop body,
  `on_consume`, the consumer drain loop body, and `fetch_events`.

Python dicts are modelled as insertion-ordered association lists (Python ≥ 3.7
dict semantics; the per-event priority dict holds the small-int keys 0–4 which
iterate in the same ascending order on older CPython as well).  Python
exceptions are modelled with `Except`: a function that may raise returns
`Except ε α`, and an uncaught exception in a loop body is a `crashed` outcome
of that loop's step function.
-/

/-- A Python runtime value, as far as the envelope payloads need: strings,
integers, booleans, `None`, and nested dicts (insertion-ordered). -/
inductive PyValue where
  | str (s : String)
  | int (n : Int)
  | bool (b : Bool)
  | none
  | vdict (entries : List (String × PyValue))
deriving Repr

/-- A Python dict with string keys, insertion-ordered (`__dict__`, message
properties, envelope wire maps, ...). -/
abbrev Fields := List (String × PyValue)

/-- `d[k]` as a total lookup: the value at the first matching key. -/
def dictGet (d : Fields) (k : String) : Option PyValue :=
  (d.find? (fun kv => kv.1 == k)).map (fun kv => kv.2)

/-- `d[k] = v` on an insertion-ordered dict: overwrite the existing key in
place, append a fresh key at the end.  This is also the model of `setattr` on
an object's `__dict__`. -/
def dictSet : Fields → String → PyValue → Fields
  | [], k, v => [(k, v)]
  | kv :: tl, k, v => if kv.1 == k then (k, v) :: tl else kv :: dictSet tl k v

/-- Writing a key then reading it back returns the written value. -/
theorem dictGet_dictSet_self (d : Fields) (k : String) (v : PyValue) :
    dictGet (dictSet d k v) k = some v := by
  induction d with
  | nil => simp [dictGet, dictSet, List.find?]
  | cons hd tl ih =>
    by_cases hk : hd.1 = k
    · simp [dictGet, dictSet, List.find?, hk]
    · have hk' : (hd.1 == k) = false := beq_eq_false_iff_ne.mpr hk
      simpa [dictGet, dictSet, List.find?, hk'] using ih

/-- Writing one key leaves every other key unchanged. -/
theorem dictGet_dictSet_ne (d : Fields) (k q : String) (v : PyValue)
    (h : q ≠ k) :
    dictGet (dictSet d k v) q = dictGet d q := by
  have hkq : (k == q) = false := beq_eq_false_iff_ne.mpr (Ne.symm h)
  induction d with
  | nil => simp [dictGet, dictSet, List.find?, hkq]
  | cons hd tl ih =>
    by_cases hk : hd.1 = k
    · have hdq : (hd.1 == q) = false := beq_eq_false_iff_ne.mpr (hk ▸ Ne.symm h)
      simp [dictGet, dictSet, List.find?, hk, hkq, hdq]
    · have hk' : (hd.1 == k) = false := beq_eq_false_iff_ne.mpr hk
      by_cases hq : hd.1 = q
      · have hq2 : (hd.1 == q) = true := beq_iff_eq.mpr hq
        simp [dictGet, dictSet, List.find?, hk', hq2]
      · have hq' : (hd.1 == q) = false := beq_eq_false_iff_ne.mpr hq
        simpa [dictGet, dictSet, List.find?, hk', hq'] using ih

/-- Setting a key absent from the dict appends it. -/
theorem dictSet_append_of_fresh (d : Fields) (k : String) (v : PyValue)
    (h : ∀ kv ∈ d, kv.1 ≠ k) :
    dictSet d k v = d ++ [(k, v)] := by
  induction d with
  | nil => rfl
  | cons hd tl ih =>
    have hk' : (hd.1 == k) = false := beq_eq_false_iff_ne.mpr (h hd (by simp))
    simp [dictSet, hk', ih (fun kv hkv => h kv (by simp [hkv]))]

/-- A Python object as the dispatch core sees it: either an event instance
(fully qualified class name plus its `__dict__`) or a plain dict.  In both
cases `__class__.__module__ + '.' + __class__.__name__` is defined. -/
inductive PyObj where
  | obj (cls : String) (attrs : Fields)
  | dict (entries : Fields)
deriving Repr

/-- `x.__class__.__module__ + '.' + x.__class__.__name__`. -/
def PyObj.className : PyObj → String
  | .obj cls _ => cls
  | .dict _ => "builtins.dict"

/-- Looking up an attribute may raise `AttributeError`. -/
inductive AttrError where
  | attributeError (name : String)
deriving Repr, DecidableEq

/-- `getattr(x, name)`: read from the instance `__dict__`; raise
`AttributeError` when the slot is absent (plain dicts carry no instance
attributes relevant here). -/
def PyObj.getattr : PyObj → String → Except AttrError PyValue
  | .obj _ attrs, name =>
    match dictGet attrs name with
    | some v => .ok v
    | none => .error (.attributeError name)
  | .dict _, name => .error (.attributeError name)

/-- `BaseEvent.uuid`: `return self._uuid` (src/nite/event.py:143-146). -/
def PyObj.uuid (e : PyObj) : Except AttrError PyValue := e.getattr "_uuid"

/-- `BaseEvent.timestamp`: `return self._timestamp` (src/nite/event.py:164-167). -/
def PyObj.timestamp (e : PyObj) : Except AttrError PyValue := e.getattr "_timestamp"

/-- `BaseEvent.version`: `return self._version` (src/nite/event.py:169-172). -/
def PyObj.version (e : PyObj) : Except AttrError PyValue := e.getattr "_version"

/-- `BaseEvent.dump` (src/nite/event.py:178-187): the wire map
`{'event': <module>.<name>, 'data': self.__dict__}`. -/
def BaseEvent.dump (cls : String) (attrs : Fields) : Fields :=
  [("event", PyValue.str cls), ("data", PyValue.vdict attrs)]

/-- `BaseEvent.load` (src/nite/event.py:189-203): `cls.__new__(cls)` — the
constructor is never run, so the fresh object starts with an empty `__dict__`
— then `setattr(event, key, value)` for each pair of `data` in order. -/
def BaseEvent.load (cls : String) (data : Fields) : PyObj :=
  PyObj.obj cls (data.foldl (fun acc kv => dictSet acc kv.1 kv.2) [])

/-- Decoding a wire map produced by `dump`: read the `event` name, resolve the
class, and rebuild via `load` (the receive path of `on_consume`, restricted to
the codec itself). -/
def decodeDump (w : Fields) : Option PyObj :=
  match dictGet w "event", dictGet w "data" with
  | some (.str cls), some (.vdict data) => some (BaseEvent.load cls data)
  | _, _ => none

theorem foldl_dictSet_disjoint (data : Fields) :
    ∀ acc : Fields, (data.map Prod.fst).Nodup →
    (∀ kv ∈ acc, ∀ k ∈ data.map Prod.fst, kv.1 ≠ k) →
    data.foldl (fun a kv => dictSet a kv.1 kv.2) acc = acc ++ data := by
  induction data with
  | nil => intro acc _ _; simp
  | cons hd tl ih =>
    intro acc hnd hdisj
    have hstep : dictSet acc hd.1 hd.2 = acc ++ [hd] :=
      dictSet_append_of_fresh acc hd.1 hd.2
        (fun kv hkv => hdisj kv hkv hd.1 (by simp))
    simp only [List.map_cons, List.nodup_cons] at hnd
    have hdisj' : ∀ kv ∈ acc ++ [hd], ∀ k ∈ tl.map Prod.fst, kv.1 ≠ k := by
      intro kv hkv k hk
      rcases List.mem_append.mp hkv with hin | hin
      · exact hdisj kv hin k (by simp; right; simpa using hk)
      · have : kv = hd := by simpa using hin
        exact this ▸ fun hcontra => hnd.1 (hcontra ▸ hk)
    calc (hd :: tl).foldl (fun a kv => dictSet a kv.1 kv.2) acc
      = tl.foldl (fun a kv => dictSet a kv.1 kv.2) (acc ++ [hd]) := by
          rw [List.foldl_cons, hstep]
    _ = (acc ++ [hd]) ++ tl := ih (acc ++ [hd]) hnd.2 hdisj'
    _ = acc ++ (hd :: tl) := by simp

/-- `load` materialises exactly the given data: no constructor runs, no extra
attribute appears, and insertion order is preserved. -/
theorem BaseEvent.load_eq (cls : String) (data : Fields)
    (h : (data.map Prod.fst).Nodup) :
    BaseEvent.load cls data = PyObj.obj cls data := by
  unfold BaseEvent.load
  rw [foldl_dictSet_disjoint data [] h (by intro kv hkv; simp at hkv)]
  rfl

/-- C3. Round-trip law of the envelope codec: for every event instance whose
`__dict__` has (necessarily) distinct keys, decoding the `dump` wire map
rebuilds an object of the same class with exactly the same attribute map —
hence the same `uuid`, `timestamp`, `version` and payload keys/values — and it
does so through `cls.__new__` plus per-key `setattr`, never through the
subtype's constructor (the `∀ attrs` covers attribute maps a constructor could
not have produced). -/
theorem codec_roundtrip (cls : String) (attrs : Fields)
    (h : (attrs.map Prod.fst).Nodup) :
    decodeDump (BaseEvent.dump cls attrs) = some (PyObj.obj cls attrs) ∧
    (PyObj.obj cls attrs).uuid = PyObj.uuid (BaseEvent.load cls attrs) ∧
    (PyObj.obj cls attrs).timestamp = PyObj.timestamp (BaseEvent.load cls attrs) ∧
    (PyObj.obj cls attrs).version = PyObj.version (BaseEvent.load cls attrs) := by
  have hload := BaseEvent.load_eq cls attrs h
  refine ⟨?_, by rw [hload], by rw [hload], by rw [hload]⟩
  simp [decodeDump, BaseEvent.dump, dictGet, List.find?, hload]

/-- Witness for C3 at a concrete envelope carrying identity fields and a
payload key. -/
theorem codec_roundtrip_witness :
    decodeDump (BaseEvent.dump "demo.Ping"
      [("_uuid", PyValue.str "u1"), ("_timestamp", PyValue.str "t1"),
       ("_version", PyValue.int 1), ("n", PyValue.int 1)]) =
    some (PyObj.obj "demo.Ping"
      [("_uuid", PyValue.str "u1"), ("_timestamp", PyValue.str "t1"),
       ("_version", PyValue.int 1), ("n", PyValue.int 1)]) :=
  (codec_roundtrip "demo.Ping"
    [("_uuid", PyValue.str "u1"), ("_timestamp", PyValue.str "t1"),
     ("_version", PyValue.int 1), ("n", PyValue.int 1)] (by simp)).1

/-- `CommandEvent.__init__` (src/nite/command.py:24-28): the fresh instance
starts empty; `super(BaseEvent, self).__init__()` resolves past `BaseEvent` in
the MRO to `object.__init__`, a no-op; then `self._command = command` and the
`handled` setter stores `self._handled = False`. -/
def CommandEvent.make (command : String) : PyObj :=
  let attrs : Fields := []
  let attrs := dictSet attrs "_command" (PyValue.str command)
  let attrs := dictSet attrs "_handled" (PyValue.bool false)
  PyObj.obj "nite.command.CommandEvent" attrs

/-- C10. `CommandEvent.__init__` skips `BaseEvent.__init__` (its `super` call
targets `object`), so for every command string the constructed instance has no
`_uuid`, `_timestamp` or `_version` attribute and each of the `uuid`,
`timestamp` and `version` properties raises `AttributeError` instead of
returning the envelope identity fields; only `_command` and `_handled` are
populated. -/
theorem commandEvent_lacks_identity (c : String) :
    (CommandEvent.make c).uuid = .error (.attributeError "_uuid") ∧
    (CommandEvent.make c).timestamp = .error (.attributeError "_timestamp") ∧
    (CommandEvent.make c).version = .error (.attributeError "_version") ∧
    (CommandEvent.make c).getattr "_command" = .ok (PyValue.str c) ∧
    (CommandEvent.make c).getattr "_handled" = .ok (PyValue.bool false) := by
  refine ⟨rfl, rfl, rfl, rfl, rfl⟩

/-- `EventPriority` (src/nite/event.py:27-33): five named levels; the enum
values are the small ints 0–4 in this order. -/
inductive EventPriority where
  | HIGHEST
  | HIGH
  | MEDIUM
  | LOW
  | LOWEST
deriving Repr, DecidableEq

/-- The per-event value of `event_listeners`: the dict created at first
registration (src/nite/event.py:74-80) with exactly the five priority keys,
inserted in the order HIGHEST, HIGH, MEDIUM, LOW, LOWEST.  No key is ever
added or removed afterwards, so the dict is modelled as a fixed record whose
iteration order is that insertion order (`items`).  (On CPython the five keys
are the ints 0–4, which also hash into ascending slot order, so the iteration
order does not even depend on dict insertion-order guarantees.) -/
structure PriorityBuckets (L : Type) where
  highest : List L
  high : List L
  medium : List L
  low : List L
  lowest : List L
deriving Repr, DecidableEq

/-- The freshly created five-bucket dict: every list empty. -/
def PriorityBuckets.empty : PriorityBuckets L :=
  ⟨[], [], [], [], []⟩

/-- Bucket selection `self.event_listeners[event_name][priority]`. -/
def PriorityBuckets.get (b : PriorityBuckets L) : EventPriority → List L
  | .HIGHEST => b.highest
  | .HIGH => b.high
  | .MEDIUM => b.medium
  | .LOW => b.low
  | .LOWEST => b.lowest

/-- `list.append(listener)` on the selected bucket. -/
def PriorityBuckets.append (b : PriorityBuckets L) :
    EventPriority → L → PriorityBuckets L
  | .HIGHEST, l => { b with highest := b.highest ++ [l] }
  | .HIGH, l => { b with high := b.high ++ [l] }
  | .MEDIUM, l => { b with medium := b.medium ++ [l] }
  | .LOW, l => { b with low := b.low ++ [l] }
  | .LOWEST, l => { b with lowest := b.lowest ++ [l] }

/-- `.items()` of the five-key dict, in insertion order. -/
def PriorityBuckets.items (b : PriorityBuckets L) :
    List (EventPriority × List L) :=
  [(.HIGHEST, b.highest), (.HIGH, b.high), (.MEDIUM, b.medium),
   (.LOW, b.low), (.LOWEST, b.lowest)]

theorem PriorityBuckets.get_append (b : PriorityBuckets L)
    (p q : EventPriority) (l : L) :
    (b.append p l).get q = b.get q ++ (if p = q then [l] else []) := by
  cases p <;> cases q <;>
    simp [PriorityBuckets.get, PriorityBuckets.append]

/-- Generic association-list lookup for the outer `event_listeners` dict. -/
def assocGet (d : List (String × β)) (k : String) : Option β :=
  (d.find? (fun kv => kv.1 == k)).map (fun kv => kv.2)

/-- Dict-value update for an existing key of the outer dict (the mutation
`self.event_listeners[event_name][priority].append(...)`). -/
def assocUpdate (d : List (String × β)) (k : String) (f : β → β) :
    List (String × β) :=
  d.map (fun kv => if kv.1 == k then (kv.1, f kv.2) else kv)

/-- The `EventManager` state that registration and dispatch touch: the
`event_listeners` dict (keys in first-registration order) and the connector's
`bound_event_names` list fed by `register_event_hook`
(src/nite/queue/connector/amqp_queue_connector.py:319-330). -/
structure EMState (L : Type) where
  eventListeners : List (String × PriorityBuckets L)
  boundEventNames : List String
deriving Repr

/-- The state right after `EventManager.__init__`: `self._event_listeners = {}`
and an untouched connector bound-events list. -/
def EMState.empty : EMState L :=
  ⟨[], []⟩

/-- `EventManager.register_event_listener` (src/nite/event.py:50-91) with the
event identifier already in name form (`event.__module__ + '.' +
event.__name__` for a class, the raw string otherwise): default the priority
to MEDIUM, create the five-bucket entry and fire `register_event_hook` on a
first registration, then append the listener to the chosen bucket.  The method
performs no liveness check and raises nothing. -/
def registerEventListener (st : EMState L) (eventName : String) (listener : L)
    (priority : Option EventPriority) : EMState L :=
  let priority := priority.getD .MEDIUM
  let st' :=
    match assocGet st.eventListeners eventName with
    | some _ => st
    | none =>
      { eventListeners := st.eventListeners ++ [(eventName, PriorityBuckets.empty)],
        boundEventNames := st.boundEventNames ++ [eventName] }
  { st' with
    eventListeners :=
      assocUpdate st'.eventListeners eventName (fun b => b.append priority listener) }

/-- Errors `handle_event` can raise: the "no listeners registered" exception
(src/nite/event.py:123-125), or an uncaught error from a listener body. -/
inductive HandleError where
  | noListeners (name : String)
  | listenerFailed (err : String)
deriving Repr, DecidableEq

/-- Run the flattened listener list in order, stopping at the first uncaught
listener error.  Returns the listeners actually invoked and the first error,
if any. -/
def runListeners (run : L → PyObj → Except String Unit) (e : PyObj) :
    List L → List L × Option String
  | [] => ([], Option.none)
  | l :: ls =>
    match run l e with
    | .error s => ([l], some s)
    | .ok _ =>
      let rest := runListeners run e ls
      (l :: rest.1, rest.2)

/-- `EventManager.handle_event` (src/nite/event.py:120-130): derive the event
name from the argument's class, raise when no registry entry exists, otherwise
run the listeners of each priority bucket in `.items()` order.  The result
records the invoked listeners (in order) and the outcome as seen by the
caller: `.ok` when the method returns, `.error` when it raises. -/
def handleEvent (run : L → PyObj → Except String Unit) (st : EMState L)
    (event : PyObj) : List L × Except HandleError Unit :=
  let eventName := event.className
  match assocGet st.eventListeners eventName with
  | none => ([], .error (.noListeners eventName))
  | some buckets =>
    let outcome := runListeners run event ((buckets.items.map (fun pb => pb.2)).flatten)
    (outcome.1,
     match outcome.2 with
     | some s => .error (.listenerFailed s)
     | Option.none => .ok ())

/-- `EventDemographic` (src/nite/event.py:14-18) as the dispatch sees it: one
of the three enum members, or an explicit node-identifier string (the code's
"part of a routing key" case). -/
inductive Demographic where
  | LOCAL
  | GLOBAL_SINGLE
  | GLOBAL_ALL
  | node (id : String)
deriving Repr, DecidableEq

/-- `event_data[1] not in EventDemographic.reverse_mapping`
(src/nite/queue/connector/amqp_queue_connector.py:222): the reverse mapping's
keys are exactly the enum values 0–2, so membership holds iff the demographic
is an enum member rather than a node-identifier string. -/
def Demographic.isEnumMember : Demographic → Bool
  | .node _ => false
  | _ => true

/-- The result of `EventManager.trigger_event`: either the event was handled
in-thread (LOCAL short-circuit) or the triple was pushed onto the producer
queue via `publish_event`
(src/nite/queue/connector/amqp_queue_connector.py:346-348). -/
inductive TriggerOutcome (L : Type) where
  | handled (trace : List L) (result : Except HandleError Unit)
  | queued (envelope : Fields) (demographic : Demographic) (replyTo : Option PyObj)
deriving Repr

/-- `EventManager.trigger_event` (src/nite/event.py:93-118):
`event_data = event if isinstance(event, dict) else event.dump()`; when the
demographic is LOCAL, `handle_event(event_data)` — note the argument is the
dict — otherwise `publish_event(event_data, demographic, reply_to_event)`. -/
def triggerEvent (run : L → PyObj → Except String Unit) (st : EMState L)
    (event : PyObj) (demographic : Demographic) (replyToEvent : Option PyObj) :
    TriggerOutcome L :=
  let eventData : Fields :=
    match event with
    | .dict d => d
    | .obj cls attrs => BaseEvent.dump cls attrs
  if demographic = Demographic.LOCAL then
    let outcome := handleEvent run st (PyObj.dict eventData)
    .handled outcome.1 outcome.2
  else
    .queued eventData demographic replyToEvent

theorem runListeners_all_ok (run : L → PyObj → Except String Unit) (e : PyObj)
    (ls : List L) (h : ∀ l ∈ ls, run l e = .ok ()) :
    runListeners run e ls = (ls, Option.none) := by
  induction ls with
  | nil => rfl
  | cons hd tl ih =>
    have hhd := h hd (by simp)
    simp [runListeners, hhd, ih (fun l hl => h l (by simp [hl]))]

theorem runListeners_stops_at_error (run : L → PyObj → Except String Unit)
    (e : PyObj) (bad : L) (post : List L) (s : String)
    (hbad : run bad e = .error s) :
    ∀ pre : List L, (∀ l ∈ pre, run l e = .ok ()) →
    runListeners run e (pre ++ bad :: post) = (pre ++ [bad], some s) := by
  intro pre
  induction pre with
  | nil => intro _; simp [runListeners, hbad]
  | cons hd tl ih =>
    intro hok
    have hhd := hok hd (by simp)
    simp [runListeners, hhd, ih (fun l hl => hok l (by simp [hl]))]

/-- Registration order for one event name: the module collaborators call
`register_event_listener` once per listener, in sequence. -/
def registerMany (st : EMState L) (eventName : String)
    (regs : List (L × EventPriority)) : EMState L :=
  regs.foldl (fun s r => registerEventListener s eventName r.1 (some r.2)) st

/-- The listeners a registration sequence put at priority `q`, in registration
order. -/
def bucketContents (regs : List (L × EventPriority)) (q : EventPriority) :
    List L :=
  (regs.filter (fun r => r.2 == q)).map Prod.fst

theorem foldl_append_get (regs : List (L × EventPriority)) :
    ∀ (B : PriorityBuckets L) (q : EventPriority),
    (regs.foldl (fun b x => b.append x.2 x.1) B).get q =
      B.get q ++ bucketContents regs q := by
  induction regs with
  | nil => intro B q; simp [bucketContents]
  | cons hd tl ih =>
    intro B q
    rw [List.foldl_cons, ih]
    rw [PriorityBuckets.get_append]
    by_cases hq : hd.2 = q
    · simp [bucketContents, hq, List.filter]
    · have hq' : (hd.2 == q) = false := by
        cases hb : hd.2 == q
        · rfl
        · exact absurd (by simpa using hb) hq
      simp [bucketContents, hq, hq', List.filter]

theorem registerMany_single (eventName : String) (bn : List String)
    (regs : List (L × EventPriority)) :
    ∀ B : PriorityBuckets L,
    registerMany ⟨[(eventName, B)], bn⟩ eventName regs =
      ⟨[(eventName, regs.foldl (fun b x => b.append x.2 x.1) B)], bn⟩ := by
  induction regs with
  | nil => intro B; rfl
  | cons hd tl ih =>
    intro B
    have hstep : registerEventListener (⟨[(eventName, B)], bn⟩ : EMState L)
        eventName hd.1 (some hd.2) =
        ⟨[(eventName, B.append hd.2 hd.1)], bn⟩ := by
      simp [registerEventListener, assocGet, assocUpdate, List.find?]
    show registerMany _ eventName tl = _
    calc registerMany (registerEventListener (⟨[(eventName, B)], bn⟩ : EMState L)
          eventName hd.1 (some hd.2)) eventName tl
        = registerMany (⟨[(eventName, B.append hd.2 hd.1)], bn⟩ : EMState L)
            eventName tl := by rw [hstep]
      _ = ⟨[(eventName, tl.foldl (fun b x => b.append x.2 x.1)
              (B.append hd.2 hd.1))], bn⟩ := ih _
      _ = _ := by rw [List.foldl_cons]

theorem registerMany_from_empty (eventName : String) (r : L × EventPriority)
    (t : List (L × EventPriority)) :
    registerMany EMState.empty eventName (r :: t) =
      ⟨[(eventName, t.foldl (fun b x => b.append x.2 x.1)
          (PriorityBuckets.empty.append r.2 r.1))], [eventName]⟩ := by
  have hstep : registerEventListener (EMState.empty : EMState L) eventName r.1
      (some r.2) =
      ⟨[(eventName, PriorityBuckets.empty.append r.2 r.1)], [eventName]⟩ := by
    simp [registerEventListener, EMState.empty, assocGet, assocUpdate, List.find?]
  show List.foldl _ _ (r :: t) = _
  rw [List.foldl_cons]
  show registerMany _ eventName t = _
  rw [hstep]
  exact registerMany_single eventName [eventName] t _

theorem PriorityBuckets.empty_get (q : EventPriority) :
    (PriorityBuckets.empty : PriorityBuckets L).get q = [] := by
  cases q <;> rfl

/-- C2. Priority-then-registration ordering of `handle_event`: for any
sequence of registrations for one event name, dispatching an instance of that
event (all listeners succeeding) invokes exactly the registered listeners,
grouped by priority in the order HIGHEST, HIGH, MEDIUM, LOW, LOWEST, and
within each priority in registration order — in particular, of two listeners
registered at equal priority the earlier-registered one runs first, since
`bucketContents` preserves the order of the registration sequence. -/
theorem handle_priority_order (run : L → PyObj → Except String Unit)
    (eventName : String) (attrs : Fields) (regs : List (L × EventPriority))
    (hne : regs ≠ [])
    (hok : ∀ r ∈ regs, run r.1 (PyObj.obj eventName attrs) = .ok ()) :
    handleEvent run (registerMany EMState.empty eventName regs)
        (PyObj.obj eventName attrs) =
      (bucketContents regs .HIGHEST ++ bucketContents regs .HIGH ++
       bucketContents regs .MEDIUM ++ bucketContents regs .LOW ++
       bucketContents regs .LOWEST, .ok ()) := by
  obtain ⟨r, t, rfl⟩ : ∃ r t, regs = r :: t := by
    cases regs with
    | nil => exact absurd rfl hne
    | cons r t => exact ⟨r, t, rfl⟩
  rw [registerMany_from_empty]
  set Bf := t.foldl (fun b x => b.append x.2 x.1)
    (PriorityBuckets.empty.append r.2 r.1) with hBf
  have hget : ∀ q, Bf.get q = bucketContents (r :: t) q := by
    intro q
    rw [hBf, foldl_append_get, PriorityBuckets.get_append,
      PriorityBuckets.empty_get]
    by_cases hq : r.2 = q
    · simp [bucketContents, List.filter, hq]
    · have hq' : (r.2 == q) = false := by
        cases hb : r.2 == q
        · rfl
        · exact absurd (by simpa using hb) hq
      simp [bucketContents, List.filter, hq, hq']
  have hflat : (Bf.items.map (fun pb => pb.2)).flatten =
      bucketContents (r :: t) .HIGHEST ++ bucketContents (r :: t) .HIGH ++
      bucketContents (r :: t) .MEDIUM ++ bucketContents (r :: t) .LOW ++
      bucketContents (r :: t) .LOWEST := by
    have h1 := hget .HIGHEST
    have h2 := hget .HIGH
    have h3 := hget .MEDIUM
    have h4 := hget .LOW
    have h5 := hget .LOWEST
    simp [PriorityBuckets.items, PriorityBuckets.get] at h1 h2 h3 h4 h5 ⊢
    rw [h1, h2, h3, h4, h5]
  have hmem : ∀ l ∈ (Bf.items.map (fun pb => pb.2)).flatten,
      run l (PyObj.obj eventName attrs) = .ok () := by
    intro l hl
    rw [hflat] at hl
    have : ∃ q, l ∈ bucketContents (r :: t) q := by
      simp only [List.mem_append] at hl
      rcases hl with ((((h | h) | h) | h) | h)
      · exact ⟨.HIGHEST, h⟩
      · exact ⟨.HIGH, h⟩
      · exact ⟨.MEDIUM, h⟩
      · exact ⟨.LOW, h⟩
      · exact ⟨.LOWEST, h⟩
    obtain ⟨q, hq⟩ := this
    simp only [bucketContents, List.mem_map, List.mem_filter] at hq
    obtain ⟨x, ⟨hx, _⟩, hxl⟩ := hq
    exact hxl ▸ hok x hx
  have hres := runListeners_all_ok run (PyObj.obj eventName attrs) _ hmem
  simp [handleEvent, PyObj.className, assocGet, List.find?, hres]
  simpa using hflat

/-- Witness for C2: four listeners at priorities HIGH, MEDIUM, LOW, HIGH; the
invocation order is HIGH-bucket registration order first (0 then 3), then
MEDIUM, then LOW. -/
theorem handle_priority_order_witness :
    handleEvent (fun (_ : Nat) (_ : PyObj) => Except.ok ())
      (registerMany EMState.empty "demo.Order"
        [(0, .HIGH), (1, .MEDIUM), (2, .LOW), (3, .HIGH)])
      (PyObj.obj "demo.Order" []) =
    ([0, 3, 1, 2], .ok ()) :=
  (handle_priority_order (fun (_ : Nat) (_ : PyObj) => Except.ok ())
    "demo.Order" [] [(0, .HIGH), (1, .MEDIUM), (2, .LOW), (3, .HIGH)]
    (by simp) (fun r _ => rfl)).trans rfl

/-- C7. Failure signalling of `handle_event`: the caller sees failure when no
registry entry exists for the event's derived name (NO_LISTENERS), and a
listener raising an uncaught error makes the overall handle a failure while
skipping every later listener of that envelope. -/
theorem handle_failure_signals (run : L → PyObj → Except String Unit) :
    (∀ (st : EMState L) (event : PyObj),
      assocGet st.eventListeners event.className = none →
      handleEvent run st event =
        ([], .error (.noListeners event.className))) ∧
    (∀ (st : EMState L) (event : PyObj) (buckets : PriorityBuckets L)
        (pre : List L) (bad : L) (post : List L) (s : String),
      assocGet st.eventListeners event.className = some buckets →
      (buckets.items.map (fun pb => pb.2)).flatten = pre ++ bad :: post →
      (∀ l ∈ pre, run l event = .ok ()) →
      run bad event = .error s →
      handleEvent run st event =
        (pre ++ [bad], .error (.listenerFailed s))) := by
  constructor
  · intro st event h
    simp [handleEvent, h]
  · intro st event buckets pre bad post s hfind hflat hpre hbad
    simp only [handleEvent, hfind]
    rw [hflat, runListeners_stops_at_error run event bad post s hbad pre hpre]

/-- Witness for C7: an empty registry signals NO_LISTENERS, and with listeners
0, 1, 2 flattened in order where 1 raises, only 0 and 1 run and the handle
fails. -/
theorem handle_failure_signals_witness :
    handleEvent (fun (l : Nat) (_ : PyObj) =>
        if l == 1 then Except.error "boom" else Except.ok ())
      EMState.empty (PyObj.obj "demo.Ping" []) =
      ([], .error (.noListeners "demo.Ping")) ∧
    handleEvent (fun (l : Nat) (_ : PyObj) =>
        if l == 1 then Except.error "boom" else Except.ok ())
      ⟨[("demo.Ping", ⟨[0], [], [1], [2], []⟩)], ["demo.Ping"]⟩
      (PyObj.obj "demo.Ping" []) =
      ([0, 1], .error (.listenerFailed "boom")) :=
  ⟨(handle_failure_signals _).1 EMState.empty (PyObj.obj "demo.Ping" []) rfl,
   (handle_failure_signals _).2
     ⟨[("demo.Ping", ⟨[0], [], [1], [2], []⟩)], ["demo.Ping"]⟩
     (PyObj.obj "demo.Ping" []) ⟨[0], [], [1], [2], []⟩ [0] 1 [2] "boom"
     rfl rfl
     (by intro l hl; simp at hl; subst hl; rfl) rfl⟩

/-- C1 (code bug). Evaluation of the LOCAL short-circuit at the documented
failing input: a listener is registered for `demo.Ping`, and
`trigger_event(ping, LOCAL)` is called on a `Ping` instance.  `trigger_event`
first serialises the instance (`event_data = event.dump()`) and then passes
that plain dict to `handle_event`, which derives the event name from the
argument's class — `builtins.dict` — finds no registry entry, and raises the
"no listeners" exception.  No listener is invoked and no success is returned,
although the broker is indeed bypassed. -/
theorem trigger_local_dumps_then_mismatches :
    triggerEvent (fun (_ : Nat) (_ : PyObj) => Except.ok ())
      (registerEventListener EMState.empty "demo.Ping" 0 Option.none)
      (PyObj.obj "demo.Ping" [("_uuid", PyValue.str "u1"), ("n", PyValue.int 1)])
      Demographic.LOCAL Option.none =
    TriggerOutcome.handled []
      (.error (.noListeners "builtins.dict")) := by
  rfl

theorem assocGet_assocUpdate (d : List (String × β)) (k : String) (f : β → β) :
    assocGet (assocUpdate d k f) k = (assocGet d k).map f := by
  induction d with
  | nil => rfl
  | cons hd tl ih =>
    by_cases hk : hd.1 = k
    · have hk2 : (hd.1 == k) = true := beq_iff_eq.mpr hk
      simp [assocGet, assocUpdate, List.find?, hk2]
    · have hk' : (hd.1 == k) = false := beq_eq_false_iff_ne.mpr hk
      simpa [assocGet, assocUpdate, List.find?, hk'] using ih

theorem assocGet_append_right (d₁ d₂ : List (String × β)) (k : String)
    (h : assocGet d₁ k = none) :
    assocGet (d₁ ++ d₂) k = assocGet d₂ k := by
  induction d₁ with
  | nil => rfl
  | cons hd tl ih =>
    by_cases hk : hd.1 = k
    · have hk2 : (hd.1 == k) = true := beq_iff_eq.mpr hk
      simp [assocGet, List.find?, hk2] at h
    · have hk' : (hd.1 == k) = false := beq_eq_false_iff_ne.mpr hk
      have h' : assocGet tl k = none := by
        simpa [assocGet, List.find?, hk'] using h
      simpa [assocGet, List.find?, hk'] using ih h'

/-- Whatever `register_event_listener` finds (or creates) for the event name,
the resulting registry entry is the previous bucket set with the listener
appended at the defaulted priority. -/
theorem registerEventListener_entry (st : EMState L) (eventName : String)
    (listener : L) (priority : Option EventPriority) :
    assocGet (registerEventListener st eventName listener priority).eventListeners
        eventName =
      some (((assocGet st.eventListeners eventName).getD
        PriorityBuckets.empty).append (priority.getD .MEDIUM) listener) := by
  unfold registerEventListener
  cases hfind : assocGet st.eventListeners eventName with
  | some B =>
    simp only [hfind, Option.getD_some]
    rw [assocGet_assocUpdate, hfind]
    rfl
  | none =>
    simp only [hfind, Option.getD_none]
    rw [assocGet_assocUpdate,
      assocGet_append_right st.eventListeners
        [(eventName, PriorityBuckets.empty)] eventName hfind]
    simp [assocGet, List.find?]

/-- Failure signals the spec's error table names for registration.  The source
defines no such error: the `Except` layer makes "raises nothing" provable. -/
inductive RegisterError where
  | alreadyLive
deriving Repr, DecidableEq

/-- The dispatcher-plus-connector state the C9 claim quantifies over: the
event-manager state together with whether `start` has spawned the connector
processes (src/nite/queue/connector/amqp_queue_connector.py:312-317). -/
structure SysState (L : Type) where
  em : EMState L
  started : Bool
deriving Repr

/-- Registration as observed through the exception layer:
`register_event_listener` (src/nite/event.py:50-91) consults no liveness
state and raises nothing, so the call always returns the mutated state. -/
def sysRegisterEventListener (s : SysState L) (eventName : String)
    (listener : L) (priority : Option EventPriority) :
    Except RegisterError (SysState L) :=
  .ok { s with em := registerEventListener s.em eventName listener priority }

/-- Counterexample to C9: on a started system that already has a listener for
`demo.Ping`, registering a listener for `demo.Pong` does not fail with
ALREADY_LIVE — it succeeds and mutates the registry (new five-bucket entry,
listener appended at the defaulted MEDIUM priority, event hook fired into
`bound_event_names`). -/
theorem register_after_start_cex :
    sysRegisterEventListener
      ⟨⟨[("demo.Ping", ⟨[], [], [0], [], []⟩)], ["demo.Ping"]⟩, true⟩
      "demo.Pong" (1 : Nat) Option.none =
      .ok ⟨⟨[("demo.Ping", ⟨[], [], [0], [], []⟩),
             ("demo.Pong", ⟨[], [], [1], [], []⟩)],
            ["demo.Ping", "demo.Pong"]⟩, true⟩ ∧
    sysRegisterEventListener
      ⟨⟨[("demo.Ping", ⟨[], [], [0], [], []⟩)], ["demo.Ping"]⟩, true⟩
      "demo.Pong" (1 : Nat) Option.none ≠
      .error RegisterError.alreadyLive :=
  ⟨rfl, fun h => Except.noConfusion h⟩

/-- C9 amended: `register_event_listener` performs no liveness check, so a
registration after the connector has started raises nothing (in particular
not ALREADY_LIVE) and mutates the registry exactly as a pre-start
registration would: the listener is appended to the bucket of the defaulted
priority for that event name. -/
theorem register_after_start_mutates (s : SysState L) (eventName : String)
    (listener : L) (priority : Option EventPriority)
    (h : s.started = true) :
    sysRegisterEventListener s eventName listener priority =
      .ok ⟨registerEventListener s.em eventName listener priority, s.started⟩ ∧
    assocGet (registerEventListener s.em eventName listener
        priority).eventListeners eventName =
      some (((assocGet s.em.eventListeners eventName).getD
        PriorityBuckets.empty).append (priority.getD .MEDIUM) listener) :=
  ⟨rfl, registerEventListener_entry s.em eventName listener priority⟩

/-- Witness for C9-amended on a concrete started system. -/
theorem register_after_start_mutates_witness :
    sysRegisterEventListener
      (⟨⟨[], []⟩, true⟩ : SysState Nat) "demo.Ping" 7 Option.none =
      .ok ⟨registerEventListener (⟨[], []⟩ : EMState Nat) "demo.Ping" 7
        Option.none, true⟩ ∧
    assocGet (registerEventListener (⟨[], []⟩ : EMState Nat) "demo.Ping" 7
        Option.none).eventListeners "demo.Ping" =
      some (((assocGet ([] : List (String × PriorityBuckets Nat))
        "demo.Ping").getD PriorityBuckets.empty).append .MEDIUM 7) :=
  register_after_start_mutates (⟨⟨[], []⟩, true⟩ : SysState Nat)
    "demo.Ping" 7 Option.none rfl

/-- Check whether `pat` is an initial segment of the character list. -/
def startsWithPat : List Char → List Char → Bool
  | [], _ => true
  | _ :: _, [] => false
  | p :: ps, c :: cs => p == c && startsWithPat ps cs

/-- Fuel-indexed core of Python `str.replace`: scan left to right, replace
each non-overlapping occurrence of `pat`.  The fuel (instantiated with the
input length, an upper bound on the number of steps) keeps the recursion
structural. -/
def replaceCharsAux (pat rep : List Char) : Nat → List Char → List Char
  | _, [] => []
  | 0, l => l
  | fuel + 1, c :: rest =>
    if startsWithPat pat (c :: rest) && !pat.isEmpty then
      rep ++ replaceCharsAux pat rep fuel (rest.drop (pat.length - 1))
    else
      c :: replaceCharsAux pat rep fuel rest

/-- Python `s.replace(pat, rep)`: every non-overlapping occurrence of `pat`
is replaced, scanning left to right (the callers never pass an empty
pattern). -/
def pyReplace (s pat rep : String) : String :=
  ⟨replaceCharsAux pat.data rep.data s.data.length s.data⟩

/-- Model of `re.match(r'^(.*)\.([^\.]+)$', name)`
(src/nite/queue/connector/amqp_queue_connector.py:337): the greedy `(.*)`
takes everything up to the last dot, `([^\.]+)` the non-empty dot-free rest;
no dot, or a trailing dot, means no match (and `matches.group` then raises on
`None`). -/
def splitLastDot (s : String) : Option (String × String) :=
  let rev := s.data.reverse
  let suffixRev := rev.takeWhile (fun c => c != '.')
  if suffixRev.isEmpty then Option.none
  else
    match rev.drop suffixRev.length with
    | [] => Option.none
    | _ :: modRev => some (⟨modRev.reverse⟩, ⟨suffixRev.reverse⟩)

/-- The broker message built by the producer loop
(src/nite/queue/connector/amqp_queue_connector.py:226-244) together with the
chosen exchange and routing key; exactly one such message is published per
dequeued triple. -/
structure ProducedMessage where
  body : Fields
  messageId : PyValue
  correlationId : Option PyValue
  replyTo : String
  exchange : String
  routingKey : String
deriving Repr

/-- Exceptions the producer loop body can raise while building the message. -/
inductive ProducerError where
  | keyError (k : String)
  | typeError (k : String)
  | attributeError (a : String)
deriving Repr, DecidableEq

/-- Body of one iteration of `producer_process_logic` after a triple
`[envelope, demographic, reply_to_event]` has been dequeued
(src/nite/queue/connector/amqp_queue_connector.py:213-244):
`routing_key = 'event.' + envelope['event']`, overridden to
`'node.' + demographic` when the demographic is not a key of
`EventDemographic.reverse_mapping`; the message takes
`message_id = envelope['data']['_uuid']`,
`correlation_id = reply_to_event.uuid if reply_to_event else None`,
`reply_to = 'node.' + node_identifier`; the exchange suffix is `_fanout`
exactly when the demographic is `GLOBAL_ALL`, `_topic` otherwise.  The body is
the MessagePack encoding of the envelope dict, modelled by the dict itself. -/
def producerStep (baseExchangeName nodeIdentifier : String) (envelope : Fields)
    (demographic : Demographic) (replyToEvent : Option PyObj) :
    Except ProducerError ProducedMessage :=
  match dictGet envelope "event" with
  | Option.none => .error (.keyError "event")
  | some (PyValue.str evName) =>
    let routingKey := "event." ++ evName
    let routingKey :=
      match demographic with
      | .node id => "node." ++ id
      | _ => routingKey
    match dictGet envelope "data" with
    | some (PyValue.vdict d) =>
      match dictGet d "_uuid" with
      | Option.none => .error (.keyError "_uuid")
      | some u =>
        let corr : Except ProducerError (Option PyValue) :=
          match replyToEvent with
          | Option.none => .ok Option.none
          | some r =>
            match r.getattr "_uuid" with
            | .ok v => .ok (some v)
            | .error _ => .error (.attributeError "_uuid")
        match corr with
        | .error e => .error e
        | .ok corrv =>
          let suffix :=
            if demographic = Demographic.GLOBAL_ALL then "_fanout" else "_topic"
          .ok { body := envelope, messageId := u, correlationId := corrv,
                replyTo := "node." ++ nodeIdentifier,
                exchange := baseExchangeName ++ suffix,
                routingKey := routingKey }
    | _ => .error (.keyError "data")
  | some _ => .error (.typeError "event")

/-- C4. Shape of every published message: for a dequeued triple whose envelope
carries an `event` name and a `data._uuid`, the producer builds exactly one
message with `message_id` equal to the envelope's uuid, `correlation_id` equal
to the reply target's uuid when present and absent otherwise, `reply_to` equal
to this node's `node.<id>`; the exchange carries the `_fanout` suffix exactly
when the demographic is GLOBAL_ALL and `_topic` otherwise, and the routing key
is `event.<event-name>` for enum-member demographics and `node.<id>` for an
explicit node-identifier demographic. -/
theorem producer_message_shape (base node evName : String) (envelope d : Fields)
    (demographic : Demographic) (replyToEvent : Option PyObj) (u ru : PyValue)
    (he : dictGet envelope "event" = some (.str evName))
    (hd : dictGet envelope "data" = some (.vdict d))
    (hu : dictGet d "_uuid" = some u)
    (hr : ∀ r, replyToEvent = some r → r.getattr "_uuid" = .ok ru) :
    ∃ m : ProducedMessage,
      producerStep base node envelope demographic replyToEvent = .ok m ∧
      m.body = envelope ∧
      m.messageId = u ∧
      m.correlationId = replyToEvent.map (fun _ => ru) ∧
      m.replyTo = "node." ++ node ∧
      (demographic = .GLOBAL_ALL → m.exchange = base ++ "_fanout") ∧
      (demographic ≠ .GLOBAL_ALL → m.exchange = base ++ "_topic") ∧
      (demographic.isEnumMember = true → m.routingKey = "event." ++ evName) ∧
      (∀ id, demographic = .node id → m.routingKey = "node." ++ id) := by
  have hstep : producerStep base node envelope demographic replyToEvent =
      .ok { body := envelope, messageId := u,
            correlationId := replyToEvent.map (fun _ => ru),
            replyTo := "node." ++ node,
            exchange := base ++
              (if demographic = Demographic.GLOBAL_ALL then "_fanout" else "_topic"),
            routingKey :=
              match demographic with
              | .node id => "node." ++ id
              | _ => "event." ++ evName } := by
    cases replyToEvent with
    | none => simp [producerStep, he, hd, hu]
    | some r =>
      have hru := hr r rfl
      simp [producerStep, he, hd, hu, hru]
  refine ⟨_, hstep, rfl, rfl, rfl, rfl, ?_, ?_, ?_, ?_⟩
  · intro hga; simp [hga]
  · intro hga; simp [hga]
  · intro henum
    cases demographic with
    | node id => simp [Demographic.isEnumMember] at henum
    | LOCAL => rfl
    | GLOBAL_SINGLE => rfl
    | GLOBAL_ALL => rfl
  · intro id hid
    cases hid
    rfl

/-- Witness for C4 on a concrete triple with a reply target, at demographic
GLOBAL_SINGLE. -/
theorem producer_message_shape_witness :
    ∃ m : ProducedMessage,
      producerStep "nite" "host1"
        [("event", PyValue.str "demo.Ping"),
         ("data", PyValue.vdict [("_uuid", PyValue.str "u1")])]
        Demographic.GLOBAL_SINGLE
        (some (PyObj.obj "demo.Req" [("_uuid", PyValue.str "u0")])) = .ok m ∧
      m.body = [("event", PyValue.str "demo.Ping"),
                ("data", PyValue.vdict [("_uuid", PyValue.str "u1")])] ∧
      m.messageId = PyValue.str "u1" ∧
      m.correlationId =
        (some (PyObj.obj "demo.Req" [("_uuid", PyValue.str "u0")])).map
          (fun _ => PyValue.str "u0") ∧
      m.replyTo = "node." ++ "host1" ∧
      (Demographic.GLOBAL_SINGLE = Demographic.GLOBAL_ALL →
        m.exchange = "nite" ++ "_fanout") ∧
      (Demographic.GLOBAL_SINGLE ≠ Demographic.GLOBAL_ALL →
        m.exchange = "nite" ++ "_topic") ∧
      (Demographic.GLOBAL_SINGLE.isEnumMember = true →
        m.routingKey = "event." ++ "demo.Ping") ∧
      (∀ id, Demographic.GLOBAL_SINGLE = Demographic.node id →
        m.routingKey = "node." ++ id) :=
  producer_message_shape "nite" "host1" "demo.Ping"
    [("event", PyValue.str "demo.Ping"),
     ("data", PyValue.vdict [("_uuid", PyValue.str "u1")])]
    [("_uuid", PyValue.str "u1")]
    Demographic.GLOBAL_SINGLE
    (some (PyObj.obj "demo.Req" [("_uuid", PyValue.str "u0")]))
    (PyValue.str "u1") (PyValue.str "u0")
    rfl rfl rfl
    (fun r hrr => by cases hrr; rfl)

/-- Wire body of a received broker message: either a MessagePack-decodable
two-field map, or bytes on which `msgpack.loads` raises. -/
inductive WireBody where
  | packed (entries : Fields)
  | malformed
deriving Repr

/-- A message as `on_consume` receives it: the body, the optional
`reply_to` and `correlation_id` properties, and the broker delivery tag. -/
structure AmqpInMessage where
  body : WireBody
  replyToProp : Option String
  correlationIdProp : Option PyValue
  deliveryTag : Nat
deriving Repr

/-- Exceptions the `on_consume` body can raise. -/
inductive ConsumeError where
  | decodeFailed
  | resolveFailed (eventName : String)
  | keyError (k : String)
deriving Repr, DecidableEq

/-- `AmqpQueueConnector.on_consume`
(src/nite/queue/connector/amqp_queue_connector.py:332-344): decode the body,
split the event name at its last dot and resolve module/class through
`get_module_attr` (`known` lists the resolvable (module, class) pairs),
rebuild the event via `Event.load(data['data'])`, stamp
`event._source = message.properties['reply_to'].replace('node.', '')` — note
`str.replace` removes every occurrence, not just a prefix — and
`event._reply_to_uuid = properties['correlation_id']` when that property
exists (else `None`), then push `[event, delivery_tag]` onto the consumer
queue, modelled as the returned pair. -/
def onConsume (known : List (String × String)) (m : AmqpInMessage) :
    Except ConsumeError (PyObj × Nat) :=
  match m.body with
  | .malformed => .error .decodeFailed
  | .packed data =>
    match dictGet data "event" with
    | some (PyValue.str evName) =>
      match splitLastDot evName with
      | Option.none => .error (.resolveFailed evName)
      | some (modName, clsName) =>
        if known.contains (modName, clsName) then
          match dictGet data "data" with
          | some (PyValue.vdict d) =>
            match m.replyToProp with
            | Option.none => .error (.keyError "reply_to")
            | some rt =>
              let loaded := d.foldl (fun acc kv => dictSet acc kv.1 kv.2) []
              let src := pyReplace rt "node." ""
              let rtu : PyValue :=
                match m.correlationIdProp with
                | some v => v
                | Option.none => PyValue.none
              let attrs :=
                dictSet (dictSet loaded "_source" (PyValue.str src))
                  "_reply_to_uuid" rtu
              .ok (PyObj.obj evName attrs, m.deliveryTag)
          | _ => .error (.keyError "data")
        else .error (.resolveFailed evName)
    | _ => .error (.keyError "event")

/-- Strip exactly one leading `node.` — this is what the spec's words
"stamping `source` from `reply_to` (stripping the `node.` prefix)" describe,
written here only to be compared against the source's `replace`-based
behaviour. -/
def specStripNodeDot (s : String) : String :=
  if startsWithPat ("node.".data) s.data then ⟨s.data.drop 5⟩ else s

/-- Counterexample to C5 as stated: with the configurable node identifier
`node.x` (so `reply_to = "node.node.x"`), the source's
`replace('node.', '')` removes both occurrences and stamps `source = "x"`,
whereas stripping the `node.` prefix would leave `node.x`. -/
theorem on_consume_source_cex :
    onConsume [("demo", "Ping")]
      ⟨.packed [("event", PyValue.str "demo.Ping"),
                ("data", PyValue.vdict [("_uuid", PyValue.str "u1")])],
       some "node.node.x", Option.none, 7⟩ =
      .ok (PyObj.obj "demo.Ping"
        [("_uuid", PyValue.str "u1"), ("_source", PyValue.str "x"),
         ("_reply_to_uuid", PyValue.none)], 7) ∧
    specStripNodeDot "node.node.x" = "node.x" ∧
    ("x" : String) ≠ "node.x" :=
  ⟨rfl, rfl, by decide⟩

/-- C5 amended: for every successfully decoded and resolved message with a
`reply_to` property, the reconstructed envelope's `_source` equals `reply_to`
with every occurrence of the substring `node.` removed (which coincides with
stripping the prefix whenever the remainder does not itself contain `node.`),
its `_reply_to_uuid` equals the `correlation_id` property when present and
`None` otherwise, and the pair of the envelope and the message's delivery tag
is enqueued onto the consumer channel. -/
theorem on_consume_stamps (known : List (String × String)) (m : AmqpInMessage)
    (data d : Fields) (evName modName clsName rt : String)
    (hb : m.body = .packed data)
    (he : dictGet data "event" = some (.str evName))
    (hs : splitLastDot evName = some (modName, clsName))
    (hk : known.contains (modName, clsName) = true)
    (hd : dictGet data "data" = some (.vdict d))
    (hr : m.replyToProp = some rt) :
    ∃ attrs : Fields,
      onConsume known m = .ok (PyObj.obj evName attrs, m.deliveryTag) ∧
      dictGet attrs "_source" = some (.str (pyReplace rt "node." "")) ∧
      dictGet attrs "_reply_to_uuid" =
        some (match m.correlationIdProp with
              | some v => v
              | Option.none => PyValue.none) := by
  refine ⟨dictSet (dictSet (d.foldl (fun acc kv => dictSet acc kv.1 kv.2) [])
      "_source" (PyValue.str (pyReplace rt "node." "")))
      "_reply_to_uuid"
      (match m.correlationIdProp with
       | some v => v
       | Option.none => PyValue.none), ?_, ?_, ?_⟩
  · have hk' : (modName, clsName) ∈ known := by simpa using hk
    simp [onConsume, hb, he, hs, hk, hk', hd, hr]
  · rw [dictGet_dictSet_ne _ _ _ _ (by decide), dictGet_dictSet_self]
  · rw [dictGet_dictSet_self]

/-- Witness for C5-amended at a concrete message carrying a correlation id. -/
theorem on_consume_stamps_witness :
    ∃ attrs : Fields,
      onConsume [("demo", "Pong")]
        ⟨.packed [("event", PyValue.str "demo.Pong"),
                  ("data", PyValue.vdict [("_uuid", PyValue.str "u2")])],
         some "node.peer1", some (PyValue.str "u9"), 11⟩ =
        .ok (PyObj.obj "demo.Pong" attrs,
          (⟨.packed [("event", PyValue.str "demo.Pong"),
                     ("data", PyValue.vdict [("_uuid", PyValue.str "u2")])],
            some "node.peer1", some (PyValue.str "u9"), 11⟩ :
            AmqpInMessage).deliveryTag) ∧
      dictGet attrs "_source" =
        some (.str (pyReplace "node.peer1" "node." "")) ∧
      dictGet attrs "_reply_to_uuid" =
        some (match (⟨.packed [("event", PyValue.str "demo.Pong"),
                     ("data", PyValue.vdict [("_uuid", PyValue.str "u2")])],
            some "node.peer1", some (PyValue.str "u9"), 11⟩ :
            AmqpInMessage).correlationIdProp with
              | some v => v
              | Option.none => PyValue.none) :=
  on_consume_stamps [("demo", "Pong")] _
    [("event", PyValue.str "demo.Pong"),
     ("data", PyValue.vdict [("_uuid", PyValue.str "u2")])]
    [("_uuid", PyValue.str "u2")] "demo.Pong" "demo" "Pong" "node.peer1"
    rfl rfl rfl rfl rfl rfl

/-- Outcome of one iteration of a sub-process loop whose body may push an
item onto a channel: the loop either continues (having pushed nothing or one
item) or the body raised an exception that the loop does not catch, which
propagates and terminates the process. -/
inductive StepOutcome (α : Type) (ε : Type) where
  | continued (pushed : Option α)
  | crashed (err : ε)
deriving Repr

/-- What `connection.drain_events(0.1)` does in one consumer iteration: either
it times out, or it delivers a message to the `on_consume` callback. -/
inductive DrainEvent where
  | timeout
  | delivery (m : AmqpInMessage)
deriving Repr

/-- One iteration of the `consumer_process_logic` drain loop
(src/nite/queue/connector/amqp_queue_connector.py:264-278): only
`socket.timeout` is caught; an exception raised inside `on_consume`
propagates out of `drain_events` and out of the `while`, terminating the
consumer process.  A successful callback pushes the (envelope, delivery-tag)
pair onto the consumer queue. -/
def consumerDrainStep (known : List (String × String)) :
    DrainEvent → StepOutcome (PyObj × Nat) ConsumeError
  | .timeout => .continued Option.none
  | .delivery m =>
    match onConsume known m with
    | .ok p => .continued (some p)
    | .error e => .crashed e

/-- Counterexample to C8 as stated: a malformed body makes `on_consume` raise,
and since the drain loop catches only `socket.timeout`, the iteration outcome
is `crashed` — nothing is enqueued or acked, but the error is not logged and
the consumer process does not keep running. -/
theorem consumer_decode_crash_cex :
    consumerDrainStep [("demo", "Ping")]
      (.delivery ⟨.malformed, some "node.a", Option.none, 3⟩) =
      .crashed .decodeFailed ∧
    consumerDrainStep [("demo", "Ping")]
      (.delivery ⟨.malformed, some "node.a", Option.none, 3⟩) ≠
      .continued Option.none :=
  ⟨rfl, fun h => StepOutcome.noConfusion h⟩

/-- C8 amended: a benign timeout continues the loop; a message whose callback
succeeds is enqueued and the loop continues; a decode/resolution error makes
the message be dropped without ack and without being enqueued, but the
exception is not caught or logged — it propagates and terminates the consumer
process instead of the process keeping running. -/
theorem consumer_error_propagates (known : List (String × String)) :
    consumerDrainStep known .timeout = .continued Option.none ∧
    (∀ m p, onConsume known m = .ok p →
      consumerDrainStep known (.delivery m) = .continued (some p)) ∧
    (∀ m e, onConsume known m = .error e →
      consumerDrainStep known (.delivery m) = .crashed e) := by
  refine ⟨rfl, ?_, ?_⟩
  · intro m p h
    simp [consumerDrainStep, h]
  · intro m e h
    simp [consumerDrainStep, h]

/-- Witness for C8-amended: the timeout case and the crash case at a concrete
malformed message. -/
theorem consumer_error_propagates_witness :
    consumerDrainStep [("demo", "Pong")] .timeout = .continued Option.none ∧
    consumerDrainStep [("demo", "Pong")]
      (.delivery ⟨.malformed, some "node.b", Option.none, 4⟩) =
      .crashed .decodeFailed :=
  ⟨(consumer_error_propagates [("demo", "Pong")]).1,
   (consumer_error_propagates [("demo", "Pong")]).2.2
     ⟨.malformed, some "node.b", Option.none, 4⟩ .decodeFailed rfl⟩

/-- What one worker pass observes on the consumer queue: either the 100 ms
`get` times out (`queue.Empty`), or it yields an `[event, delivery_tag]`
pair. -/
inductive FetchItem where
  | empty
  | item (event : PyObj) (tag : Nat)
deriving Repr

/-- One iteration of the `fetch_events` worker loop
(src/nite/queue/connector/amqp_queue_connector.py:350-368): on `queue.Empty`
the loop just retries; after a dequeued pair, `handle_event` is invoked and
the delivery tag is pushed onto the ack queue only when it returns; only
`queue.Empty` is caught, so an exception from `handle_event` propagates out
of `fetch_events` and terminates the worker loop. -/
def fetchEventsStep (run : L → PyObj → Except String Unit) (st : EMState L) :
    FetchItem → StepOutcome Nat HandleError
  | .empty => .continued Option.none
  | .item ev tag =>
    match (handleEvent run st ev).2 with
    | .ok _ => .continued (some tag)
    | .error e => .crashed e

/-- Counterexample to C6 as stated: when a listener raises during
`handle_event`, the delivery tag is indeed not acked, but the failure is not
dropped silently with the loop continuing — the exception propagates and the
worker iteration crashes. -/
theorem fetch_failure_crash_cex :
    fetchEventsStep
      (fun (l : Nat) (_ : PyObj) =>
        if l == 1 then Except.error "boom" else Except.ok ())
      ⟨[("demo.Ping", ⟨[], [], [1], [], []⟩)], ["demo.Ping"]⟩
      (.item (PyObj.obj "demo.Ping" []) 5) =
      .crashed (.listenerFailed "boom") ∧
    fetchEventsStep
      (fun (l : Nat) (_ : PyObj) =>
        if l == 1 then Except.error "boom" else Except.ok ())
      ⟨[("demo.Ping", ⟨[], [], [1], [], []⟩)], ["demo.Ping"]⟩
      (.item (PyObj.obj "demo.Ping" []) 5) ≠
      .continued Option.none :=
  ⟨rfl, fun h => StepOutcome.noConfusion h⟩

/-- C6 amended: in each worker pass, an empty queue just continues the loop;
the delivery tag is pushed onto the ack channel if and only if
`handle_event` returns successfully; when `handle_event` raises, no ack is
pushed and the exception propagates out of `fetch_events`, terminating the
worker loop, rather than the tag being dropped silently with the loop
continuing — so each continued pass acks exactly its successfully handled
envelope. -/
theorem fetch_ack_iff_handle_ok (run : L → PyObj → Except String Unit)
    (st : EMState L) :
    fetchEventsStep run st .empty = .continued Option.none ∧
    (∀ ev tag, (handleEvent run st ev).2 = .ok () →
      fetchEventsStep run st (.item ev tag) = .continued (some tag)) ∧
    (∀ ev tag e, (handleEvent run st ev).2 = .error e →
      fetchEventsStep run st (.item ev tag) = .crashed e) ∧
    (∀ ev tag out, fetchEventsStep run st (.item ev tag) = .continued out →
      out = some tag ∧ (handleEvent run st ev).2 = .ok ()) := by
  refine ⟨rfl, ?_, ?_, ?_⟩
  · intro ev tag h
    simp [fetchEventsStep, h]
  · intro ev tag e h
    simp [fetchEventsStep, h]
  · intro ev tag out h
    cases hres : (handleEvent run st ev).2 with
    | ok u =>
      cases u
      simp [fetchEventsStep, hres] at h
      exact ⟨h.symm, rfl⟩
    | error e =>
      simp [fetchEventsStep, hres] at h

/-- Witness for C6-amended: the empty pass, a successful handle acking tag 9,
and a failing handle crashing the pass. -/
theorem fetch_ack_iff_handle_ok_witness :
    fetchEventsStep
      (fun (l : Nat) (_ : PyObj) =>
        if l == 1 then Except.error "boom" else Except.ok ())
      ⟨[("demo.Ping", ⟨[], [], [0], [], []⟩)], ["demo.Ping"]⟩
      FetchItem.empty = .continued Option.none ∧
    fetchEventsStep
      (fun (l : Nat) (_ : PyObj) =>
        if l == 1 then Except.error "boom" else Except.ok ())
      ⟨[("demo.Ping", ⟨[], [], [0], [], []⟩)], ["demo.Ping"]⟩
      (.item (PyObj.obj "demo.Ping" []) 9) = .continued (some 9) ∧
    fetchEventsStep
      (fun (l : Nat) (_ : PyObj) =>
        if l == 1 then Except.error "boom" else Except.ok ())
      ⟨[("demo.Ping", ⟨[], [], [0], [], []⟩)], ["demo.Ping"]⟩
      (.item (PyObj.dict []) 9) = .crashed (.noListeners "builtins.dict") :=
  ⟨(fetch_ack_iff_handle_ok _ _).1,
   (fetch_ack_iff_handle_ok _ _).2.1 (PyObj.obj "demo.Ping" []) 9 rfl,
   (fetch_ack_iff_handle_ok _ _).2.2.1 (PyObj.dict []) 9
     (.noListeners "builtins.dict") rfl⟩

/-- Witness for C10 at the concrete command string `ls`. -/
theorem commandEvent_lacks_identity_witness :
    (CommandEvent.make "ls").uuid = .error (.attributeError "_uuid") ∧
    (CommandEvent.make "ls").timestamp =
      .error (.attributeError "_timestamp") ∧
    (CommandEvent.make "ls").version = .error (.attributeError "_version") ∧
    (CommandEvent.make "ls").getattr "_command" = .ok (PyValue.str "ls") ∧
    (CommandEvent.make "ls").getattr "_handled" = .ok (PyValue.bool false) :=
  commandEvent_lacks_identity "ls"
